import Mathlib

/-!
Shallow embedding of `blueprint/backend/files.py`, the configuration-file
scanner.  Pure data and algorithms are transcribed from the Python source;
filesystem and package-database effects are supplied through an explicit
environment record, one field per library call the source makes.
-/

/-- Bytes of an ASCII string, modelling a Python 2 `str` value used as both
text and byte sequence. -/
def strBytes (s : String) : List Nat := s.toList.map Char.toNat

/-- Model of `os.path.basename`: the part of the path after the last slash. -/
def basenameOf (s : String) : String :=
  String.mk ((s.toList.reverse.takeWhile (fun c => c ≠ '/')).reverse)

/-- Model of Python `str.rstrip` applied with the slash character. -/
def rstripSlashes (s : String) : String :=
  String.mk ((s.toList.reverse.dropWhile (fun c => c == '/')).reverse)

/-- Model of Python `str.rstrip` with no argument: strip trailing whitespace. -/
def rstripWS (s : String) : String :=
  String.mk ((s.toList.reverse.dropWhile (fun c => c.isWhitespace)).reverse)

/-- Whether the first string starts with the second. -/
def strStarts (s p : String) : Bool := p.toList.isPrefixOf s.toList

/-- Whether the first string ends with the second. -/
def strEnds (s p : String) : Bool := p.toList.isSuffixOf s.toList

/-- Model of `os.path.join` for two components, as used by the scanner. -/
def joinPath (dir name : String) : String :=
  if strStarts name "/" then name
  else if strEnds dir "/" then dir ++ name
  else dir ++ "/" ++ name

/-- Character-set membership for an `fnmatch` bracket expression, with
`a-z` ranges as in the regular expression the Python library builds. -/
def bracketMatch (c : Char) : List Char → Bool
  | a :: '-' :: b :: rest => (a ≤ c && c ≤ b) || bracketMatch c rest
  | a :: rest => (a == c) || bracketMatch c rest
  | [] => false

/-- Split the tail of a bracket expression at the closing bracket. -/
def bracketClose : List Char → Option (List Char × List Char)
  | [] => none
  | c :: rest =>
    if c == ']' then some ([], rest)
    else (bracketClose rest).map (fun pr => (c :: pr.1, pr.2))

/-- Parse an `fnmatch` bracket expression body: negation flag, character
set, and the remainder of the pattern.  A leading `!` negates, a leading
`]` is literal, and a missing closing bracket fails (the bracket is then
treated as a literal character by the matcher). -/
def bracketParse (ps : List Char) : Option (Bool × List Char × List Char) :=
  let pr1 : Bool × List Char :=
    match ps with
    | '!' :: t => (true, t)
    | _ => (false, ps)
  let pr2 : List Char × List Char :=
    match pr1.2 with
    | ']' :: t => ([']'], t)
    | _ => (([] : List Char), pr1.2)
  (bracketClose pr2.2).map (fun pr => (pr1.1, pr2.1 ++ pr.1, pr.2))

/-- Model of `fnmatch.fnmatch` pattern matching over explicit character
lists: `*` matches any run, `?` any single character, `[...]` a character
set; other characters match literally. -/
def fnmatchChars : Nat → List Char → List Char → Bool
  | 0, _, _ => false
  | _ + 1, [], [] => true
  | _ + 1, [], _ :: _ => false
  | fuel + 1, '*' :: ps, cs =>
    fnmatchChars fuel ps cs ||
      (match cs with
       | [] => false
       | _ :: cs1 => fnmatchChars fuel ('*' :: ps) cs1)
  | fuel + 1, '?' :: ps, _ :: cs => fnmatchChars fuel ps cs
  | fuel + 1, '[' :: ps, c :: cs =>
    (match bracketParse ps with
     | some pr => (bracketMatch c pr.2.1 != pr.1) && fnmatchChars fuel pr.2.2 cs
     | none => ('[' == c) && fnmatchChars fuel ps cs)
  | fuel + 1, p :: ps, c :: cs => (p == c) && fnmatchChars fuel ps cs
  | _ + 1, _ :: _, [] => false

/-- `fnmatch.fnmatch name pattern` on a POSIX system (case preserved).
The fuel argument bounds the descent; every step shortens the combined
length of pattern and name, so the given budget is never exhausted. -/
def fnmatch (nm pat : String) : Bool :=
  fnmatchChars (pat.toList.length + nm.toList.length + 1) pat.toList nm.toList

/-- The fields of `os.lstat` results that the scanner reads. -/
structure Stat where
  st_mode : Nat
  st_uid : Nat
  st_gid : Nat
  st_ctime : Int
deriving DecidableEq, Repr

/-- The process environment visible to the scanner: filesystem state,
package-database lookups and account lookups.  Each field models one
library call of the source; `none` results model the exception the call
would raise (`IOError` for reads, `OSError` for `readlink` and `lstat`;
the `lstat` and `readlink` calls of the walker are not wrapped in any
handler, so their failures abort the walk). -/
structure Env where
  isdir : String → Bool
  globETC : String → List String
  userIgnore : Option (List String)
  readFile : String → Option (List Nat)
  readlink : String → Option String
  lstatOf : String → Option Stat
  dpkgCache : String → Option (List String)
  statusMd5 : String → List String
  dpkgMd5 : String → String → Option String
  md5hex : List Nat → String
  pwName : Nat → Option String
  grName : Nat → Option String

/-- The built-in `IGNORE` pattern tuple, verbatim from the source. -/
def IGNORE : List String :=
  ["*.dpkg-*",
   "/etc/.git",
   "/etc/.pwd.lock",
   "/etc/alternatives",
   "/etc/apparmor",
   "/etc/apparmor.d",
   "/etc/ca-certificates.conf",
   "/etc/dpkg/origins/default",
   "/etc/fstab",
   "/etc/group-",
   "/etc/group",
   "/etc/gshadow-",
   "/etc/gshadow",
   "/etc/hostname",
   "/etc/init.d/.legacy-bootordering",
   "/etc/initramfs-tools/conf.d/resume",
   "/etc/ld.so.cache",
   "/etc/localtime",
   "/etc/mailcap",
   "/etc/mtab",
   "/etc/modules",
   "/etc/motd",
   "/etc/network/interfaces",
   "/etc/passwd-",
   "/etc/passwd",
   "/etc/popularity-contest.conf",
   "/etc/resolv.conf",
   "/etc/rc0.d",
   "/etc/rc1.d",
   "/etc/rc2.d",
   "/etc/rc3.d",
   "/etc/rc4.d",
   "/etc/rc5.d",
   "/etc/rc6.d",
   "/etc/rcS.d",
   "/etc/shadow-",
   "/etc/shadow",
   "/etc/ssl/certs",
   "/etc/timezone",
   "/etc/udev/rules.d/70-persistent-*.rules"]

/-- One line of the user `~/.blueprintignore` file, parsed as in the cache
construction of `_ignore`: blank lines and `#` comments are dropped, a
leading `!` marks a negation rule. -/
def parseIgnoreLine (line : String) : Option (String × Bool) :=
  let pattern := rstripWS line
  if pattern == "" then none
  else if strStarts pattern "#" then none
  else if strStarts pattern "!" then
    some (String.mk (pattern.toList.drop 1), true)
  else some (pattern, false)

/-- The rule cache of `_ignore`: built-in patterns first (never negated),
then the user rules in file order; an unreadable user file contributes
nothing. -/
def buildIgnoreCache (userLines : Option (List String)) : List (String × Bool) :=
  IGNORE.map (fun p => (p, false)) ++
    (match userLines with
     | none => []
     | some lines => lines.filterMap parseIgnoreLine)

/-- The inner `match` helper of `_ignore`: a pattern without a slash is
matched against the basename with `fnmatch` (a trailing slash restricts
the match to directories); a pattern with a slash is expanded by `glob`
relative to `/etc` and matched by path prefix. -/
def matchRule (env : Env) (basename filename pattern : String) : Bool :=
  let dirOnly := strEnds pattern "/"
  let p := rstripSlashes pattern
  if (p.toList.contains '/') == false then
    if fnmatch basename p then
      (if dirOnly then env.isdir filename else true)
    else false
  else
    (env.globETC (joinPath "/etc" p)).any
      (fun q => filename == q || strStarts filename (q ++ "/"))

/-- The rule-evaluation loop of `_ignore` (lines 253..267 of the source):
one pass over the cached rules; a rule is considered only when its negation
flag differs from the running state; while not ignored, a matching
exclusion rule flips the state; once ignored, a matching negation rule
returns `False` immediately. -/
def ignoreLoop (env : Env) (basename filename : String) :
    List (String × Bool) → Bool → Bool
  | [], ignored => ignored
  | (pattern, negate) :: rest, ignored =>
    if ignored != negate then ignoreLoop env basename filename rest ignored
    else if ignored then
      (if matchRule env basename filename pattern then false
       else ignoreLoop env basename filename rest ignored)
    else ignoreLoop env basename filename rest
      (matchRule env basename filename pattern)

/-- `_ignore(filename, ignored)`: evaluate the cached rules against the
path starting from the given state. -/
def ignoreRun (env : Env) (rules : List (String × Bool)) (filename : String)
    (ignored : Bool) : Bool :=
  ignoreLoop env (basenameOf filename) filename rules ignored

/-- `_dpkg_query_S(filename)` (lines 314..321 of the source): look the path
up in the package-file cache; on a miss, read the symbolic link and retry
on the target, recursively; a failed `readlink` yields the empty list.
The recursion of the source is modelled with explicit fuel; `none` stands
for fuel exhaustion (the unbounded recursion a link cycle would cause). -/
def dpkgQueryS (env : Env) : Nat → String → Option (List String)
  | 0, _ => none
  | fuel + 1, f =>
    match env.dpkgCache f with
    | some pkgs => some pkgs
    | none =>
      match env.readlink f with
      | none => some []
      | some target => dpkgQueryS env fuel target

/-- The compiled-in `MD5SUMS` table, verbatim from the source: a value
beginning with a slash names a reference file to hash in place of a
literal checksum. -/
def MD5SUMS : List (String × String) :=
  [("/etc/adduser.conf", "/usr/share/adduser/adduser.conf"),
   ("/etc/apparmor.d/tunables/home.d/ubuntu",
      "2a88811f7b763daa96c20b20269294a4"),
   ("/etc/chatscripts/provider", "/usr/share/ppp/provider.chatscript"),
   ("/etc/default/console-setup", "0fb6cec686d0410993bdf17192bee7d6"),
   ("/etc/default/grub", "ee9df6805efb2a7d1ba3f8016754a119"),
   ("/etc/default/irqbalance", "7e10d364b9f72b11d7bf7bd1cfaeb0ff"),
   ("/etc/default/locale", "164aba1ef1298affaa58761647f2ceba"),
   ("/etc/default/rcS", "/usr/share/initscripts/default.rcS"),
   ("/etc/environment", "44ad415fac749e0c39d6302a751db3f2"),
   ("/etc/hosts.allow", "8c44735847c4f69fb9e1f0d7a32e94c1"),
   ("/etc/hosts.deny", "92a0a19db9dc99488f00ac9e7b28eb3d"),
   ("/etc/initramfs-tools/modules", "/usr/share/initramfs-tools/modules"),
   ("/etc/inputrc", "/usr/share/readline/inputrc"),
   ("/etc/iscsi/iscsid.conf", "6c6fd718faae84a4ab1b276e78fea471"),
   ("/etc/kernel-img.conf", "f1ed9c3e91816337aa7351bdf558a442"),
   ("/etc/ld.so.conf", "4317c6de8564b68d628c21efa96b37e4"),
   ("/etc/networks", "/usr/share/base-files/networks"),
   ("/etc/nsswitch.conf", "/usr/share/base-files/nsswitch.conf"),
   ("/etc/ppp/chap-secrets", "faac59e116399eadbb37644de6494cc4"),
   ("/etc/ppp/pap-secrets", "698c4d412deedc43dde8641f84e8b2fd"),
   ("/etc/ppp/peers/provider", "/usr/share/ppp/provider.peer"),
   ("/etc/profile", "/usr/share/base-files/profile"),
   ("/etc/python/debian_config", "7f4739eb8858d231601a5ed144099ac8"),
   ("/etc/rc.local", "10fd9f051accb6fd1f753f2d48371890"),
   ("/etc/rsyslog.d/50-default.conf", "/usr/share/rsyslog/50-default.conf"),
   ("/etc/security/opasswd", "d41d8cd98f00b204e9800998ecf8427e"),
   ("/etc/sgml/xml-core.cat", "bcd454c9bf55a3816a134f9766f5928f"),
   ("/etc/shells", "0e85c87e09d716ecb03624ccff511760"),
   ("/etc/ssh/sshd_config", "e24f749808133a27d94fda84a89bb27b"),
   ("/etc/sudoers", "02f74ccbec48997f402a063a172abb48"),
   ("/etc/ufw/after.rules", "/usr/share/ufw/after.rules"),
   ("/etc/ufw/after6.rules", "/usr/share/ufw/after6.rules"),
   ("/etc/ufw/before.rules", "/usr/share/ufw/before.rules"),
   ("/etc/ufw/before6.rules", "/usr/share/ufw/before6.rules"),
   ("/etc/ufw/ufw.conf", "/usr/share/ufw/ufw.conf")]

/-- `_get_md5sums(filename)` (lines 324..347): candidate checksums from
the status database and the per-package checksum manifests when some
package owns the path, then the `MD5SUMS` override.  A reference-path
override is replaced by the hash of the reference file's content; if that
read fails the path string itself is appended (the `finally` clause).  A
manifest lookup can yield `None`, kept here as `none`.  The result `none`
of the whole function models fuel exhaustion in the provenance resolver. -/
def getMd5sums (env : Env) (fuel : Nat) (f : String) :
    Option (List (Option String)) :=
  match dpkgQueryS env fuel f with
  | none => none
  | some packages =>
    let base : List (Option String) :=
      if packages.isEmpty then []
      else (env.statusMd5 f).map some ++
        packages.map (fun p => env.dpkgMd5 p f)
    some (match MD5SUMS.lookup f with
      | none => base
      | some v =>
        let v1 := if strStarts v "/" then
            (match env.readFile v with
             | some bytes => env.md5hex bytes
             | none => v)
          else v
        base ++ [some v1])

/-- The candidate loop of `_is_known_file`: on a checksum match the ignore
engine is re-run with a forced ignored state; only if it still says
ignored is the file reported known, otherwise the loop continues. -/
def knownLoop (env : Env) (rules : List (String × Bool)) (f h : String) :
    List (Option String) → Bool
  | [] => false
  | m :: rest =>
    if some h == m then
      (if ignoreRun env rules f true then true
       else knownLoop env rules f h rest)
    else knownLoop env rules f h rest

/-- `_is_known_file(filename, content)` (lines 270..289): any owning
package named `base-files` makes the file known unconditionally; otherwise
the content checksum is compared against every candidate, each match being
confirmed by the forced-ignored re-run of the ignore engine.  `none`
models the crash of an unbounded provenance recursion. -/
def isKnownFile (env : Env) (fuel : Nat) (rules : List (String × Bool))
    (f : String) (content : List Nat) : Option Bool :=
  match dpkgQueryS env fuel f with
  | none => none
  | some packages =>
    if packages.contains "base-files" then some true
    else
      match getMd5sums env fuel f with
      | none => none
      | some md5sums =>
        some (knownLoop env rules f (env.md5hex content) md5sums)

/-- The Python 2 `str.decode` with the UTF-8 codec, as a code-point list:
multi-byte sequences need proper continuation bytes, over-long encodings
and code points beyond `0x10FFFF` are rejected, while surrogate code
points decode without error (the Python 2 codec allows them). -/
def utf8DecodeAux : Nat → List Nat → Option (List Nat)
  | _, [] => some []
  | 0, _ :: _ => none
  | fuel + 1, b :: rest =>
    if b < 128 then (utf8DecodeAux fuel rest).map (fun t => b :: t)
    else if b < 194 then none
    else if b < 224 then
      match rest with
      | c1 :: rest1 =>
        if 128 ≤ c1 ∧ c1 < 192 then
          (utf8DecodeAux fuel rest1).map (fun t => ((b - 192) * 64 + (c1 - 128)) :: t)
        else none
      | [] => none
    else if b < 240 then
      match rest with
      | c1 :: c2 :: rest2 =>
        if (if b == 224 then 160 else 128) ≤ c1 ∧ c1 < 192 ∧
            128 ≤ c2 ∧ c2 < 192 then
          (utf8DecodeAux fuel rest2).map
            (fun t => ((b - 224) * 4096 + (c1 - 128) * 64 + (c2 - 128)) :: t)
        else none
      | _ => none
    else if b < 245 then
      match rest with
      | c1 :: c2 :: c3 :: rest3 =>
        if (if b == 240 then 144 else 128) ≤ c1 ∧
            c1 < (if b == 244 then 144 else 192) ∧
            128 ≤ c2 ∧ c2 < 192 ∧ 128 ≤ c3 ∧ c3 < 192 then
          (utf8DecodeAux fuel rest3).map
            (fun t => ((b - 240) * 262144 + (c1 - 128) * 4096 +
              (c2 - 128) * 64 + (c3 - 128)) :: t)
        else none
      | _ => none
    else none

/-- The Python 2 UTF-8 decode of a byte list; the fuel is the list length,
which suffices since every step consumes at least one byte. -/
def utf8Decode (l : List Nat) : Option (List Nat) := utf8DecodeAux l.length l

/-- The base64 alphabet as byte values: index 0..25 map to `A`..`Z`,
26..51 to `a`..`z`, 52..61 to `0`..`9`, 62 to `+`, 63 to `/`. -/
def b64charOf (v : Nat) : Nat :=
  if v < 26 then 65 + v
  else if v < 52 then 71 + v
  else if v < 62 then v - 4
  else if v == 62 then 43
  else 47

/-- `base64.b64encode` over byte lists: three input bytes become four
alphabet bytes; a final group of one or two bytes is padded with `=`
(byte 61). -/
def b64encode : List Nat → List Nat
  | b1 :: b2 :: b3 :: rest =>
    b64charOf (b1 / 4) :: b64charOf ((b1 % 4) * 16 + b2 / 16) ::
      b64charOf ((b2 % 16) * 4 + b3 / 64) :: b64charOf (b3 % 64) ::
      b64encode rest
  | [b1, b2] =>
    [b64charOf (b1 / 4), b64charOf ((b1 % 4) * 16 + b2 / 16),
     b64charOf ((b2 % 16) * 4), 61]
  | [b1] => [b64charOf (b1 / 4), b64charOf ((b1 % 4) * 16), 61, 61]
  | [] => []

/-- Inverse of the base64 alphabet: byte value back to the 6-bit group. -/
def b64charBack (c : Nat) : Option Nat :=
  if 65 ≤ c ∧ c ≤ 90 then some (c - 65)
  else if 97 ≤ c ∧ c ≤ 122 then some (c - 71)
  else if 48 ≤ c ∧ c ≤ 57 then some (c + 4)
  else if c == 43 then some 62
  else if c == 47 then some 63
  else none


/-- Reference base64 decoder, the mathematical inverse of `b64encode`:
four alphabet bytes yield three bytes, with `=` padding (byte 61) closing
the final group. -/
def b64decode : List Nat → Option (List Nat)
  | [] => some []
  | c1 :: c2 :: c3 :: c4 :: rest =>
    if c3 == 61 && c4 == 61 && rest.isEmpty then
      match b64charBack c1, b64charBack c2 with
      | some g1, some g2 =>
        if g2 % 16 == 0 then some [g1 * 4 + g2 / 16] else none
      | _, _ => none
    else if c4 == 61 && rest.isEmpty then
      match b64charBack c1, b64charBack c2, b64charBack c3 with
      | some g1, some g2, some g3 =>
        if g3 % 4 == 0 then
          some [g1 * 4 + g2 / 16, (g2 % 16) * 16 + g3 / 4]
        else none
      | _, _, _ => none
    else
      match b64charBack c1, b64charBack c2, b64charBack c3, b64charBack c4 with
      | some g1, some g2, some g3, some g4 =>
        (b64decode rest).map
          (fun t => (g1 * 4 + g2 / 16) :: ((g2 % 16) * 16 + g3 / 4) ::
            ((g3 % 4) * 64 + g4) :: t)
      | _, _, _, _ => none
  | _ => none

theorem b64charBack_b64charOf (v : Nat) (hv : v < 64) :
    b64charBack (b64charOf v) = some v := by
  interval_cases v <;> rfl

theorem b64charOf_ne_61 (v : Nat) (hv : v < 64) :
    (b64charOf v == 61) = false := by
  interval_cases v <;> rfl

theorem addMulDiv (a b c : Nat) (hc : 0 < c) (ha : a < c) :
    (b * c + a) / c = b := by
  rw [Nat.add_comm, Nat.add_mul_div_right _ _ hc, Nat.div_eq_of_lt ha,
    Nat.zero_add]

theorem addMulMod (a b c : Nat) (ha : a < c) : (b * c + a) % c = a := by
  rw [Nat.add_comm, Nat.add_mul_mod_self_right, Nat.mod_eq_of_lt ha]

/-- Round trip: decoding an encoded byte list recovers the bytes. -/
theorem b64decode_b64encode (l : List Nat) (hl : ∀ b ∈ l, b < 256) :
    b64decode (b64encode l) = some l := by
  match l with
  | [] => rfl
  | [b1] =>
    have h1 : b1 < 256 := hl b1 (by simp)
    have e1 : b1 / 4 < 64 := by omega
    have e2 : b1 % 4 * 16 < 64 := by omega
    simp only [b64encode, b64decode]
    simp [b64charBack_b64charOf _ e1, b64charBack_b64charOf _ e2,
      Nat.mul_mod_left]
    omega
  | [b1, b2] =>
    have h1 : b1 < 256 := hl b1 (by simp)
    have h2 : b2 < 256 := hl b2 (by simp)
    have e1 : b1 / 4 < 64 := by omega
    have e2 : b1 % 4 * 16 + b2 / 16 < 64 := by omega
    have e3 : b2 % 16 * 4 < 64 := by omega
    have d3 : b2 % 16 * 4 / 4 = b2 % 16 := Nat.mul_div_cancel _ (by omega)
    have m2 : (b1 % 4 * 16 + b2 / 16) % 16 = b2 / 16 :=
      addMulMod _ _ _ (by omega)
    have d2 : (b1 % 4 * 16 + b2 / 16) / 16 = b1 % 4 :=
      addMulDiv _ _ _ (by omega) (by omega)
    simp only [b64encode, b64decode]
    simp [b64charOf_ne_61 _ e3, b64charBack_b64charOf _ e1,
      b64charBack_b64charOf _ e2, b64charBack_b64charOf _ e3,
      Nat.mul_mod_left, d3, m2, d2]
    omega
  | b1 :: b2 :: b3 :: rest =>
    have h1 : b1 < 256 := hl b1 (by simp)
    have h2 : b2 < 256 := hl b2 (by simp)
    have h3 : b3 < 256 := hl b3 (by simp)
    have e1 : b1 / 4 < 64 := by omega
    have e2 : b1 % 4 * 16 + b2 / 16 < 64 := by omega
    have e3 : b2 % 16 * 4 + b3 / 64 < 64 := by omega
    have e4 : b3 % 64 < 64 := by omega
    have d2 : (b1 % 4 * 16 + b2 / 16) / 16 = b1 % 4 :=
      addMulDiv _ _ _ (by omega) (by omega)
    have m2 : (b1 % 4 * 16 + b2 / 16) % 16 = b2 / 16 :=
      addMulMod _ _ _ (by omega)
    have d3 : (b2 % 16 * 4 + b3 / 64) / 4 = b2 % 16 :=
      addMulDiv _ _ _ (by omega) (by omega)
    have m3 : (b2 % 16 * 4 + b3 / 64) % 4 = b3 / 64 :=
      addMulMod _ _ _ (by omega)
    have ih : b64decode (b64encode rest) = some rest :=
      b64decode_b64encode rest (fun b hb => hl b (by simp [hb]))
    simp only [b64encode, b64decode]
    simp [b64charOf_ne_61 _ e3, b64charOf_ne_61 _ e4,
      b64charBack_b64charOf _ e1, b64charBack_b64charOf _ e2,
      b64charBack_b64charOf _ e3, b64charBack_b64charOf _ e4, ih,
      d2, m2, d3, m3]
    constructor
    · omega
    constructor
    · omega
    omega

/-- `stat.S_ISLNK`: the file-type bits of `st_mode` name a symbolic link. -/
def S_ISLNK (m : Nat) : Bool := (m &&& 61440) == 40960

/-- `stat.S_ISREG`: the file-type bits of `st_mode` name a regular file. -/
def S_ISREG (m : Nat) : Bool := (m &&& 61440) == 32768

/-- The mode field of a record: `{0:o}.format(st_mode)`, the octal text. -/
def octalStr (m : Nat) : String := String.mk (Nat.toDigits 8 m)

/-- A Python 2 value that is either a `str` byte sequence or a decoded
`unicode` code-point sequence, as stored in a record's content field. -/
inductive PyContent
  | bytes (b : List Nat)
  | text (t : List Nat)
deriving DecidableEq, Repr

/-- An owner or group: the resolved account name, or the raw numeric id
when the lookup raised `KeyError`. -/
inductive NameOrId
  | name (s : String)
  | id (n : Nat)
deriving DecidableEq, Repr

/-- The record stored into `b.files[filename]` for an accepted file. -/
structure FileRecord where
  content : PyContent
  encoding : String
  group : NameOrId
  mode : String
  owner : NameOrId
deriving DecidableEq, Repr

/-- Outcome of the per-file body of the walker loop: an uncaught exception
(the bare `os.readlink` call, or unbounded provenance recursion), a
`continue`, or an emitted record. -/
inductive WalkResult
  | crash
  | skip
  | emit (r : FileRecord)
deriving DecidableEq, Repr

/-- The per-directory ctime histogram (lines 122..133 of the source):
occurrences of a change-time among the directory's files and immediate
subdirectories. -/
def ctimeHist (files : List (String × Stat)) (dirCtimes : List Int)
    (t : Int) : Nat :=
  (files.map (fun pr => pr.2.st_ctime)).count t + dirCtimes.count t

/-- The ctime-heuristic seed of line 142: a file is pre-seeded as ignored
when its change-time occurs more than once in the directory histogram. -/
def ctimeSeed (files : List (String × Stat)) (dirCtimes : List Int)
    (t : Int) : Bool :=
  decide (1 < ctimeHist files dirCtimes t)

/-- The owner field: `pwd.getpwuid` name, or the raw uid on `KeyError`. -/
def ownerOf (env : Env) (s : Stat) : NameOrId :=
  match env.pwName s.st_uid with
  | some n => NameOrId.name n
  | none => NameOrId.id s.st_uid

/-- The group field: `grp.getgrgid` name, or the raw gid on `KeyError`. -/
def groupOf (env : Env) (s : Stat) : NameOrId :=
  match env.grName s.st_gid with
  | some n => NameOrId.name n
  | none => NameOrId.id s.st_gid

/-- The content of the legacy default `/etc/fuse.conf`. -/
def userAllowOther : List Nat := strBytes "user_allow_other\n"

/-- The legacy `/etc/fuse.conf` suppression (lines 158..166 of the
source): only that one path, re-read and compared byte for byte against
the one literal, and even then suppressed only when the ignore engine,
re-run with a forced ignored state, still says ignored; a failed re-read
is swallowed. -/
def fuseSuppressed (env : Env) (rules : List (String × Bool))
    (filename : String) : Bool :=
  if filename == "/etc/fuse.conf" then
    match env.readFile filename with
    | some c2 =>
      if c2 == userAllowOther then ignoreRun env rules filename true
      else false
    | none => false
  else false

/-- The per-file body of the walker loop (lines 135..215 of the source):
the ignore check seeded by the directory verdict and the ctime heuristic,
the content read, the authenticity check, the legacy `/etc/fuse.conf`
rule, then the symbolic-link and regular-file branches building the
record.  Other file types are only warned about. -/
def processFile (env : Env) (fuel : Nat) (rules : List (String × Bool))
    (dirIgnored : Bool) (hist : Int → Nat) (filename : String) (s : Stat) :
    WalkResult :=
  if ignoreRun env rules filename
      (dirIgnored || decide (1 < hist s.st_ctime)) then .skip
  else
    match env.readFile filename with
    | none => .skip
    | some content =>
      match isKnownFile env fuel rules filename content with
      | none => .crash
      | some true => .skip
      | some false =>
        if fuseSuppressed env rules filename then .skip
        else if S_ISLNK s.st_mode then
          match env.readlink filename with
          | none => .crash
          | some target =>
            if target == "/lib/init/upstart-job" then .skip
            else if strStarts target "/etc/alternatives/" then .skip
            else .emit
              { content := PyContent.bytes (strBytes target),
                encoding := "plain",
                group := groupOf env s,
                mode := octalStr s.st_mode,
                owner := ownerOf env s }
        else if S_ISREG s.st_mode then
          match utf8Decode content with
          | some t => .emit
              { content := PyContent.text t,
                encoding := "plain",
                group := groupOf env s,
                mode := octalStr s.st_mode,
                owner := ownerOf env s }
          | none => .emit
              { content := PyContent.bytes (b64encode content),
                encoding := "base64",
                group := groupOf env s,
                mode := octalStr s.st_mode,
                owner := ownerOf env s }
        else .skip

/-- The `lstat` of every file of a walked directory (line 125 of the
source): the comprehension is not wrapped in any handler, so the first
failing `os.lstat` (a file vanished between listing and stat, or a
permission error) raises and aborts the walk, modelled as `none`. -/
def lstatAll (env : Env) (dirpath : String) :
    List String → Option (List (String × Stat))
  | [] => some []
  | fn :: rest =>
    match env.lstatOf (joinPath dirpath fn) with
    | none => none
    | some st =>
      (lstatAll env dirpath rest).map
        (fun t => (joinPath dirpath fn, st) :: t)

/-- The `lstat` change-times of the subdirectories (line 133 of the
source): again an uncaught failure aborts the walk. -/
def lstatCtimes (env : Env) (dirpath : String) :
    List String → Option (List Int)
  | [] => some []
  | d :: rest =>
    match env.lstatOf (joinPath dirpath d) with
    | none => none
    | some st =>
      (lstatCtimes env dirpath rest).map (fun t => st.st_ctime :: t)

/-- One directory of the walk (lines 115..133): the directory-level ignore
verdict, the `lstat` of every file and subdirectory, the ctime histogram,
and the per-file walk results in order; `none` models the uncaught
`OSError` of an `os.lstat` call aborting the walk before any file of the
directory is classified. -/
def dirResults (env : Env) (fuel : Nat) (dirpath : String)
    (dirnames filenames : List String) :
    Option (List (String × WalkResult)) :=
  let rules := buildIgnoreCache env.userIgnore
  let ignoredDir := ignoreRun env rules dirpath false
  match lstatAll env dirpath filenames with
  | none => none
  | some files =>
    match lstatCtimes env dirpath dirnames with
    | none => none
    | some dirCtimes =>
      some (files.map (fun pr =>
        (pr.1, processFile env fuel rules ignoredDir
          (ctimeHist files dirCtimes) pr.1 pr.2)))

/-- Fold the per-file results of a directory into the records inserted
into the blueprint, or `none` when an uncaught exception aborts the walk. -/
def collectResults : List (String × WalkResult) →
    Option (List (String × FileRecord))
  | [] => some []
  | (_, WalkResult.crash) :: _ => none
  | (_, WalkResult.skip) :: rest => collectResults rest
  | (p, WalkResult.emit r) :: rest =>
    (collectResults rest).map (fun t => (p, r) :: t)

/-- The records one walked directory contributes to the blueprint, or
`none` when an uncaught exception aborts the walk. -/
def processDir (env : Env) (fuel : Nat) (dirpath : String)
    (dirnames filenames : List String) :
    Option (List (String × FileRecord)) :=
  match dirResults env fuel dirpath dirnames filenames with
  | none => none
  | some results => collectResults results

/-- A minimal environment: empty filesystem, empty package database. -/
def envNull : Env :=
  { isdir := fun _ => false,
    globETC := fun _ => [],
    userIgnore := none,
    readFile := fun _ => none,
    readlink := fun _ => none,
    lstatOf := fun _ =>
      some { st_mode := 0, st_uid := 0, st_gid := 0, st_ctime := 0 },
    dpkgCache := fun _ => none,
    statusMd5 := fun _ => [],
    dpkgMd5 := fun _ _ => none,
    md5hex := fun _ => "",
    pwName := fun _ => none,
    grName := fun _ => none }

/-- Running the loop through a block of exclusion rules folds their
matches into the state and never returns early. -/
theorem ignoreLoop_all_exclusion (env : Env) (b f : String)
    (l : List (String × Bool)) (rest : List (String × Bool))
    (hl : ∀ r ∈ l, r.2 = false) (ign : Bool) :
    ignoreLoop env b f (l ++ rest) ign =
      ignoreLoop env b f rest
        (ign || l.any (fun r => matchRule env b f r.1)) := by
  induction l generalizing ign with
  | nil => simp
  | cons hd tl ih =>
    obtain ⟨p, negate⟩ := hd
    have hneg : negate = false := hl (p, negate) (by simp)
    subst hneg
    have htl : ∀ r ∈ tl, r.2 = false := fun r hr => hl r (by simp [hr])
    cases ign with
    | true => simp [ignoreLoop, ih htl]
    | false =>
      cases hm : matchRule env b f p with
      | true => simp [ignoreLoop, hm, ih htl]
      | false => simp [ignoreLoop, hm, ih htl]

/-- Running the loop through negation rules from an ignored state returns
false exactly when one of them matches. -/
theorem ignoreLoop_all_negation (env : Env) (b f : String)
    (l : List (String × Bool)) (hl : ∀ r ∈ l, r.2 = true) :
    ignoreLoop env b f l true =
      !(l.any (fun r => matchRule env b f r.1)) := by
  induction l with
  | nil => rfl
  | cons hd tl ih =>
    obtain ⟨p, negate⟩ := hd
    have hneg : negate = true := hl (p, negate) (by simp)
    subst hneg
    have htl : ∀ r ∈ tl, r.2 = true := fun r hr => hl r (by simp [hr])
    cases hm : matchRule env b f p with
    | true => simp [ignoreLoop, hm]
    | false => simp [ignoreLoop, hm, ih htl]

/-- C1 counterexample: with the cache built from a user file whose
negation rule precedes its exclusion rule, both matching the path, the
single-pass evaluation of `_ignore` returns true, not the false the
claimed two-pass order-independent semantics would give. -/
theorem ignore_two_pass_counterexample :
    matchRule envNull (basenameOf "/etc/zzz.conf") "/etc/zzz.conf"
        "*.conf" = true ∧
    matchRule envNull (basenameOf "/etc/zzz.conf") "/etc/zzz.conf"
        "zzz.conf" = true ∧
    buildIgnoreCache (some ["!*.conf", "zzz.conf"]) =
      IGNORE.map (fun p => (p, false)) ++
        [("*.conf", true), ("zzz.conf", false)] ∧
    ignoreRun envNull (buildIgnoreCache (some ["!*.conf", "zzz.conf"]))
        "/etc/zzz.conf" false = true := by
  refine ⟨by decide, by decide, by decide, by decide⟩

/-- C1 (amended): the evaluation of `_ignore` is a single pass gated by
the running state, so a matching negation rule overrides a matching
exclusion rule only when it is positioned after the exclusion rules, as
when the never-negated built-ins come first and the user negation rules
follow: for any rule list consisting of exclusion rules followed by
negation rules, with at least one match in each block, the result from
the not-ignored initial state is false. -/
theorem ignore_exclusion_then_negation (env : Env) (f : String)
    (excls negs : List (String × Bool))
    (hex : ∀ r ∈ excls, r.2 = false) (hng : ∀ r ∈ negs, r.2 = true)
    (hmx : ∃ r ∈ excls, matchRule env (basenameOf f) f r.1 = true)
    (hmn : ∃ r ∈ negs, matchRule env (basenameOf f) f r.1 = true) :
    ignoreRun env (excls ++ negs) f false = false := by
  unfold ignoreRun
  rw [ignoreLoop_all_exclusion env _ f excls negs hex false]
  have h1 : excls.any (fun r => matchRule env (basenameOf f) f r.1) = true :=
    List.any_eq_true.mpr hmx
  rw [h1]
  simp only [Bool.false_or]
  rw [ignoreLoop_all_negation env _ f negs hng]
  simp only [Bool.not_eq_false']
  exact List.any_eq_true.mpr hmn

/-- C1 witness: a matching exclusion rule followed by a matching negation
rule yields inclusion. -/
theorem ignore_exclusion_then_negation_witness :
    ignoreRun envNull ([("zzz.conf", false)] ++ [("*.conf", true)])
      "/etc/zzz.conf" false = false :=
  ignore_exclusion_then_negation envNull "/etc/zzz.conf"
    [("zzz.conf", false)] [("*.conf", true)]
    (by decide) (by decide) (by decide) (by decide)

/-- C2 counterexample: in a directory holding exactly two files with the
same change-time, each file shares its change-time with exactly one other
entry, yet the heuristic of line 142 seeds it as an ignore candidate,
since the histogram count 2 already exceeds 1. -/
theorem ctime_seed_counterexample :
    ctimeSeed
      [("/etc/a", { st_mode := 33188, st_uid := 0, st_gid := 0, st_ctime := 5 }),
       ("/etc/b", { st_mode := 33188, st_uid := 0, st_gid := 0, st_ctime := 5 })]
      [] 5 = true ∧
    ctimeHist
      [("/etc/b", { st_mode := 33188, st_uid := 0, st_gid := 0, st_ctime := 5 })]
      [] 5 = 1 := by
  exact ⟨by decide, by decide⟩

/-- C2 (amended): a walked file is seeded as a heuristic ignore candidate
exactly when its change-time is shared with one or more other immediate
entries of the directory: the histogram over the remaining entries (the
file itself removed once) is at least one.  A unique change-time is never
seeded. -/
theorem ctime_seed_iff_shared (l1 l2 : List (String × Stat))
    (dirCtimes : List Int) (p : String) (s : Stat) :
    ctimeSeed (l1 ++ (p, s) :: l2) dirCtimes s.st_ctime = true ↔
      1 ≤ ctimeHist (l1 ++ l2) dirCtimes s.st_ctime := by
  unfold ctimeSeed ctimeHist
  simp only [List.map_append, List.map_cons, List.count_append,
    List.count_cons, beq_self_eq_true, if_true, decide_eq_true_eq]
  omega

/-- C2 witness: with a sibling sharing the change-time, the file is
seeded. -/
theorem ctime_seed_iff_shared_witness :
    ctimeSeed
      ([] ++ ("/etc/a",
          { st_mode := 33188, st_uid := 0, st_gid := 0, st_ctime := 5 }) ::
        [("/etc/b",
          { st_mode := 33188, st_uid := 0, st_gid := 0, st_ctime := 5 })])
      [] 5 = true :=
  (ctime_seed_iff_shared []
    [("/etc/b", { st_mode := 33188, st_uid := 0, st_gid := 0, st_ctime := 5 })]
    [] "/etc/a"
    { st_mode := 33188, st_uid := 0, st_gid := 0, st_ctime := 5 }).mpr
    (by decide)

/-- Unfolding equation of the provenance resolver at positive fuel. -/
theorem dpkgQueryS_succ (env : Env) (fuel : Nat) (f : String) :
    dpkgQueryS env (fuel + 1) f =
      (match env.dpkgCache f with
       | some pkgs => some pkgs
       | none =>
         match env.readlink f with
         | none => some []
         | some target => dpkgQueryS env fuel target) := rfl

/-- Modelled from the claim under test: a one-hop provenance resolution
that resolves at most one level of symbolic link, retries the lookup on
the target and otherwise returns the empty collection, used to compare
the claimed behaviour against the recursive resolver of the source. -/
def dpkgQuerySOneHop (env : Env) (f : String) : List String :=
  match env.dpkgCache f with
  | some pkgs => pkgs
  | none =>
    match env.readlink f with
    | none => []
    | some target =>
      match env.dpkgCache target with
      | some pkgs => pkgs
      | none => []

/-- An environment with a two-hop symbolic-link chain in front of an
indexed path. -/
def envChain : Env :=
  { envNull with
    dpkgCache := fun f => if f == "/etc/real" then some ["pkg"] else none,
    readlink := fun f =>
      if f == "/etc/l1" then some "/etc/l2"
      else if f == "/etc/l2" then some "/etc/real"
      else none }

/-- C4 counterexample: across a two-hop symbolic-link chain whose first
two paths are absent from the package-file index, the resolver of the
source recurses through the second hop and returns the packages of the
final target, while the claimed at-most-one-hop resolution yields the
empty collection. -/
theorem dpkg_query_two_hop_counterexample :
    envChain.dpkgCache "/etc/l1" = none ∧
    envChain.readlink "/etc/l1" = some "/etc/l2" ∧
    envChain.dpkgCache "/etc/l2" = none ∧
    envChain.readlink "/etc/l2" = some "/etc/real" ∧
    dpkgQueryS envChain 3 "/etc/l1" = some ["pkg"] ∧
    dpkgQuerySOneHop envChain "/etc/l1" = [] := by
  refine ⟨by decide, by decide, by decide, by decide, by decide, by decide⟩

/-- C4 (amended): on an index miss the provenance resolver follows
symbolic links transitively, hop after hop: along any chain of cache-miss
paths linked by readlink it returns the packages of the final indexed
path, however many hops that takes; and a cache-miss path whose link
cannot be read yields the empty collection. -/
theorem dpkg_query_follows_chain :
    (∀ (env : Env) (fuel : Nat) (ms : List String) (f g : String)
      (pkgs : List String),
      List.Chain' (fun a b => env.readlink a = some b) (f :: ms ++ [g]) →
      (∀ x ∈ f :: ms, env.dpkgCache x = none) →
      env.dpkgCache g = some pkgs →
      ms.length + 2 ≤ fuel →
      dpkgQueryS env fuel f = some pkgs) ∧
    (∀ (env : Env) (fuel : Nat) (f : String),
      env.dpkgCache f = none → env.readlink f = none → 1 ≤ fuel →
      dpkgQueryS env fuel f = some []) := by
  constructor
  · intro env fuel ms
    induction ms generalizing fuel with
    | nil =>
      intro f g pkgs hchain hmiss hg hfuel
      obtain ⟨n, rfl⟩ : ∃ n, fuel = n + 2 := ⟨fuel - 2, by omega⟩
      have h1 : env.dpkgCache f = none := hmiss f (by simp)
      have hlink : env.readlink f = some g := by simpa using hchain
      simp only [dpkgQueryS_succ, h1, hlink, hg]
    | cons m ms ih =>
      intro f g pkgs hchain hmiss hg hfuel
      obtain ⟨n, rfl⟩ : ∃ n, fuel = n + 1 := ⟨fuel - 1, by omega⟩
      have hchain2 : env.readlink f = some m ∧
          List.Chain' (fun a b => env.readlink a = some b)
            (m :: ms ++ [g]) := by
        simpa using hchain
      have h1 : env.dpkgCache f = none := hmiss f (by simp)
      simp only [dpkgQueryS_succ, h1, hchain2.1]
      refine ih n m g pkgs hchain2.2
        (fun x hx => hmiss x (List.mem_cons_of_mem f hx)) hg ?hfl
      simp only [List.length_cons] at hfuel
      omega
  · intro env fuel f hc hl hfuel
    obtain ⟨n, rfl⟩ : ∃ n, fuel = n + 1 := ⟨fuel - 1, by omega⟩
    simp only [dpkgQueryS_succ, hc, hl]

/-- C4 witness: the two-hop chain resolves to the indexed packages, and a
cache miss with an unreadable link yields the empty collection. -/
theorem dpkg_query_follows_chain_witness :
    dpkgQueryS envChain 3 "/etc/l1" = some ["pkg"] ∧
    dpkgQueryS envNull 1 "/etc/x" = some [] :=
  ⟨dpkg_query_follows_chain.1 envChain 3 ["/etc/l2"] "/etc/l1" "/etc/real"
      ["pkg"]
      (by
        show List.Chain' (fun a b => envChain.readlink a = some b)
          ["/etc/l1", "/etc/l2", "/etc/real"]
        exact List.chain'_cons.mpr ⟨rfl, List.chain'_cons.mpr ⟨rfl,
          List.chain'_singleton _⟩⟩)
      (by decide) (by decide) (by decide),
   dpkg_query_follows_chain.2 envNull 1 "/etc/x" rfl rfl (by decide)⟩

/-- The candidate loop reports known exactly when some candidate equals
the content hash and the forced-ignored re-run of the ignore engine still
says ignored. -/
theorem knownLoop_eq (env : Env) (rules : List (String × Bool)) (f h : String)
    (l : List (Option String)) :
    knownLoop env rules f h l =
      (l.any (fun m => some h == m) && ignoreRun env rules f true) := by
  induction l with
  | nil => rfl
  | cons m rest ih =>
    simp only [knownLoop, List.any_cons]
    cases hm : (some h == m) with
    | true =>
      cases hig : ignoreRun env rules f true with
      | true => simp [hm, hig]
      | false => simp [hm, hig, ih]
    | false => simp [hm, ih]

/-- An environment where the walked path is owned by base-files and its
content hash matches the status-database candidate. -/
def envBase : Env :=
  { envNull with
    dpkgCache := fun f => if f == "/etc/x" then some ["base-files"] else none,
    statusMd5 := fun f => if f == "/etc/x" then ["H"] else [],
    md5hex := fun _ => "H" }

/-- C3 counterexample: the path is owned by base-files, its checksum
matches a candidate, and a user negation rule matches the path so the
forced-ignored re-run returns not ignored; `_is_known_file` nevertheless
classifies the file known, because the base-files ownership returns
before the checksum loop consults the ignore engine. -/
theorem known_base_files_counterexample :
    getMd5sums envBase 2 "/etc/x" = some [some "H", none] ∧
    envBase.md5hex [] = "H" ∧
    ignoreRun envBase [("x", true)] "/etc/x" true = false ∧
    isKnownFile envBase 2 [("x", true)] "/etc/x" [] = some true := by
  refine ⟨by decide, by decide, by decide, by decide⟩

/-- C3 (amended): provided no owning package is the always-trusted
base-files, when the checksum of the current content matches some
candidate the file is classified known exactly when the re-invocation of
the ignore engine with a forced ignored initial state still returns
ignored; a matching user negation rule therefore makes it not known. -/
theorem known_iff_recheck (env : Env) (fuel : Nat)
    (rules : List (String × Bool)) (f : String) (content : List Nat)
    (packages : List String) (cands : List (Option String))
    (hp : dpkgQueryS env fuel f = some packages)
    (hb : packages.contains "base-files" = false)
    (hc : getMd5sums env fuel f = some cands)
    (hm : cands.any (fun m => some (env.md5hex content) == m) = true) :
    isKnownFile env fuel rules f content =
      some (ignoreRun env rules f true) := by
  simp only [isKnownFile, hp, hb, hc, knownLoop_eq, hm, Bool.true_and,
    Bool.false_eq_true, if_false]

/-- An environment with one owning package that is not base-files and a
matching status-database checksum. -/
def envKnown : Env :=
  { envNull with
    dpkgCache := fun f => if f == "/etc/x" then some ["pkg"] else none,
    statusMd5 := fun f => if f == "/etc/x" then ["H"] else [],
    md5hex := fun _ => "H" }

/-- C3 witness: with a matching candidate and no negation rule, the file
is known exactly as the forced-ignored re-run (here: still ignored). -/
theorem known_iff_recheck_witness :
    isKnownFile envKnown 2 [] "/etc/x" [] =
      some (ignoreRun envKnown [] "/etc/x" true) :=
  known_iff_recheck envKnown 2 [] "/etc/x" [] ["pkg"] [some "H", none]
    (by decide) (by decide) (by decide) (by decide)

/-- An environment where the reference file named by the override entry
for `/etc/adduser.conf` is readable and no package owns the path. -/
def envOverride : Env :=
  { envNull with
    readFile := fun p =>
      if p == "/usr/share/adduser/adduser.conf" then some [65] else none,
    md5hex := fun b => if b == [65] then "MA" else "MB" }

/-- C7 counterexample: the override entry for the path is a reference
path, the current content equals the reference file's content byte for
byte (so their checksums match), yet the file is classified NOT known,
because a user negation rule matches the path and the forced-ignored
re-run of the ignore engine vetoes the checksum match. -/
theorem override_reference_counterexample :
    MD5SUMS.lookup "/etc/adduser.conf" =
      some "/usr/share/adduser/adduser.conf" ∧
    envOverride.readFile "/usr/share/adduser/adduser.conf" = some [65] ∧
    isKnownFile envOverride 1 [("adduser.conf", true)]
      "/etc/adduser.conf" [65] = some false := by
  refine ⟨by decide, by decide, by decide⟩

/-- C7 (amended): for a path whose override entry is a reference path,
when no package owns the path, the reference file is readable, and the
forced-ignored re-run of the ignore engine returns ignored (no user
negation rule rescues the path), the file is classified known exactly
when the checksum of its current content equals the checksum of the
reference file's current content; and when reading the reference file
fails, the failure is swallowed and the literal table value, the
reference path string itself, is the candidate that remains. -/
theorem override_reference_known_iff :
    (∀ (env : Env) (fuel : Nat) (rules : List (String × Bool))
      (f v : String) (content refBytes : List Nat),
      MD5SUMS.lookup f = some v → strStarts v "/" = true →
      dpkgQueryS env fuel f = some [] →
      env.readFile v = some refBytes →
      ignoreRun env rules f true = true →
      (isKnownFile env fuel rules f content = some true ↔
        env.md5hex content = env.md5hex refBytes)) ∧
    (∀ (env : Env) (fuel : Nat) (f v : String),
      MD5SUMS.lookup f = some v → strStarts v "/" = true →
      dpkgQueryS env fuel f = some [] →
      env.readFile v = none →
      getMd5sums env fuel f = some [some v]) := by
  constructor
  · intro env fuel rules f v content refBytes hv hs hp hr hig
    have hg : getMd5sums env fuel f =
        some [some (env.md5hex refBytes)] := by
      simp [getMd5sums, hp, hv, hs, hr]
    simp [isKnownFile, hp, hg, knownLoop_eq, hig, beq_iff_eq]
  · intro env fuel f v hv hs hp hr
    simp [getMd5sums, hp, hv, hs, hr]

/-- C7 witness: equal content and reference checksums with no negation
rule give known; an unreadable reference leaves the path string as the
candidate. -/
theorem override_reference_known_iff_witness :
    isKnownFile envOverride 1 [] "/etc/adduser.conf" [65] = some true ∧
    getMd5sums envNull 1 "/etc/adduser.conf" =
      some [some "/usr/share/adduser/adduser.conf"] :=
  ⟨(override_reference_known_iff.1 envOverride 1 [] "/etc/adduser.conf"
      "/usr/share/adduser/adduser.conf" [65] [65]
      (by decide) (by decide) (by decide) (by decide) (by decide)).mpr rfl,
   override_reference_known_iff.2 envNull 1 "/etc/adduser.conf"
      "/usr/share/adduser/adduser.conf"
      (by decide) (by decide) (by decide) rfl⟩

/-- Inversion of the per-file walk: an emitted record pins down the
survived checks, the read content and the record fields, in both the
symbolic-link and the regular-file branch. -/
theorem processFile_emit_inv (env : Env) (fuel : Nat)
    (rules : List (String × Bool)) (dirIgnored : Bool) (hist : Int → Nat)
    (f : String) (s : Stat) (r : FileRecord)
    (h : processFile env fuel rules dirIgnored hist f s = WalkResult.emit r) :
    ∃ content, env.readFile f = some content ∧
      ignoreRun env rules f
        (dirIgnored || decide (1 < hist s.st_ctime)) = false ∧
      isKnownFile env fuel rules f content = some false ∧
      ((∃ t, S_ISLNK s.st_mode = true ∧ env.readlink f = some t ∧
          (t == "/lib/init/upstart-job") = false ∧
          strStarts t "/etc/alternatives/" = false ∧
          r = { content := PyContent.bytes (strBytes t), encoding := "plain",
                group := groupOf env s, mode := octalStr s.st_mode,
                owner := ownerOf env s }) ∨
        (S_ISLNK s.st_mode = false ∧ S_ISREG s.st_mode = true ∧
          ((∃ t, utf8Decode content = some t ∧
              r = { content := PyContent.text t, encoding := "plain",
                    group := groupOf env s, mode := octalStr s.st_mode,
                    owner := ownerOf env s }) ∨
            (utf8Decode content = none ∧
              r = { content := PyContent.bytes (b64encode content),
                    encoding := "base64", group := groupOf env s,
                    mode := octalStr s.st_mode,
                    owner := ownerOf env s })))) := by
  unfold processFile at h
  split at h
  · exact absurd h (by simp)
  · rename_i hig
    split at h
    · exact absurd h (by simp)
    · rename_i content hread
      split at h
      · exact absurd h (by simp)
      · exact absurd h (by simp)
      · rename_i hknown
        split at h
        · exact absurd h (by simp)
        · rename_i hfuse
          refine ⟨content, hread, by simpa using hig, hknown, ?_⟩
          split at h
          · rename_i hlnk
            split at h
            · exact absurd h (by simp)
            · rename_i t hrl
              split at h
              · exact absurd h (by simp)
              · rename_i ht1
                split at h
                · exact absurd h (by simp)
                · rename_i ht2
                  injection h with h2
                  exact Or.inl ⟨t, hlnk, hrl, by simpa using ht1,
                    by simpa using ht2, h2.symm⟩
          · rename_i hlnk
            split at h
            · rename_i hreg
              split at h
              · rename_i t hutf
                injection h with h2
                exact Or.inr ⟨by simpa using hlnk, hreg,
                  Or.inl ⟨t, hutf, h2.symm⟩⟩
              · rename_i hutf
                injection h with h2
                exact Or.inr ⟨by simpa using hlnk, hreg,
                  Or.inr ⟨hutf, h2.symm⟩⟩
            · exact absurd h (by simp)

/-- C6: a symbolic link whose target is the init-compatibility path
`/lib/init/upstart-job` or starts with the alternatives prefix
`/etc/alternatives/` never yields a record, whatever the ignore and
authenticity checks said; every recorded symbolic link stores the link
target string as its content with plain encoding. -/
theorem symlink_special_targets_spec :
    (∀ (env : Env) (fuel : Nat) (rules : List (String × Bool))
        (dirIgnored : Bool) (hist : Int → Nat) (f : String) (s : Stat)
        (t : String) (r : FileRecord),
      S_ISLNK s.st_mode = true → env.readlink f = some t →
      (t = "/lib/init/upstart-job" ∨ strStarts t "/etc/alternatives/" = true) →
      processFile env fuel rules dirIgnored hist f s ≠ WalkResult.emit r) ∧
    (∀ (env : Env) (fuel : Nat) (rules : List (String × Bool))
        (dirIgnored : Bool) (hist : Int → Nat) (f : String) (s : Stat)
        (r : FileRecord),
      S_ISLNK s.st_mode = true →
      processFile env fuel rules dirIgnored hist f s = WalkResult.emit r →
      ∃ t, env.readlink f = some t ∧
        r.content = PyContent.bytes (strBytes t) ∧ r.encoding = "plain") := by
  constructor
  · intro env fuel rules dirIgnored hist f s t r hlnk hrl hspec hemit
    obtain ⟨content, hread, hig, hknown, hbranch⟩ :=
      processFile_emit_inv env fuel rules dirIgnored hist f s r hemit
    rcases hbranch with ⟨t2, _, hrl2, ht1, ht2, _⟩ | ⟨hl, _, _⟩
    · rw [hrl] at hrl2
      injection hrl2 with e
      subst e
      rcases hspec with h1 | h2
      · subst h1
        simp at ht1
      · rw [h2] at ht2
        exact absurd ht2 (by simp)
    · rw [hlnk] at hl
      exact absurd hl (by simp)
  · intro env fuel rules dirIgnored hist f s r hlnk hemit
    obtain ⟨content, hread, hig, hknown, hbranch⟩ :=
      processFile_emit_inv env fuel rules dirIgnored hist f s r hemit
    rcases hbranch with ⟨t, _, hrl, _, _, hr⟩ | ⟨hl, _, _⟩
    · exact ⟨t, hrl, by rw [hr], by rw [hr]⟩
    · rw [hlnk] at hl
      exact absurd hl (by simp)

/-- An environment with two readable symbolic links, one aimed at the
init-compatibility shim and one at an ordinary target. -/
def envLink : Env :=
  { envNull with
    readFile := fun p =>
      if p == "/etc/ln" then some [65]
      else if p == "/etc/ln2" then some [65] else none,
    readlink := fun p =>
      if p == "/etc/ln" then some "/lib/init/upstart-job"
      else if p == "/etc/ln2" then some "/target" else none }

/-- C6 witness: the upstart-job link is never emitted; the ordinary link
is recorded with its target string as plain content. -/
theorem symlink_special_targets_spec_witness :
    (processFile envLink 2 [] false (fun _ => 0) "/etc/ln"
        { st_mode := 41471, st_uid := 0, st_gid := 0, st_ctime := 0 } ≠
      WalkResult.emit
        { content := PyContent.bytes (strBytes "/target"),
          encoding := "plain", group := NameOrId.id 0, mode := "120777",
          owner := NameOrId.id 0 }) ∧
    (∃ t, envLink.readlink "/etc/ln2" = some t ∧
      ({ content := PyContent.bytes (strBytes "/target"),
         encoding := "plain", group := NameOrId.id 0, mode := "120777",
         owner := NameOrId.id 0 } : FileRecord).content =
        PyContent.bytes (strBytes t) ∧
      ({ content := PyContent.bytes (strBytes "/target"),
         encoding := "plain", group := NameOrId.id 0, mode := "120777",
         owner := NameOrId.id 0 } : FileRecord).encoding = "plain") :=
  ⟨symlink_special_targets_spec.1 envLink 2 [] false (fun _ => 0) "/etc/ln"
      { st_mode := 41471, st_uid := 0, st_gid := 0, st_ctime := 0 }
      "/lib/init/upstart-job"
      { content := PyContent.bytes (strBytes "/target"), encoding := "plain",
        group := NameOrId.id 0, mode := "120777", owner := NameOrId.id 0 }
      (by decide) (by decide) (Or.inl rfl),
   symlink_special_targets_spec.2 envLink 2 [] false (fun _ => 0) "/etc/ln2"
      { st_mode := 41471, st_uid := 0, st_gid := 0, st_ctime := 0 }
      { content := PyContent.bytes (strBytes "/target"), encoding := "plain",
        group := NameOrId.id 0, mode := "120777", owner := NameOrId.id 0 }
      (by decide) (by decide)⟩

/-- C10: for a symbolic link that reaches the authenticity check, the
checker consumes the bytes read by opening the path (the dereferenced
target content), while the emitted record stores the readlink target
string: a known verdict on the read bytes suppresses the record, and a
not-known verdict together with the other checks emits the record whose
content is the link string, not the read bytes. -/
theorem symlink_content_classification (env : Env) (fuel : Nat)
    (rules : List (String × Bool)) (dirIgnored : Bool) (hist : Int → Nat)
    (f : String) (s : Stat) (c : List Nat) (t : String)
    (hlnk : S_ISLNK s.st_mode = true)
    (hread : env.readFile f = some c)
    (hrl : env.readlink f = some t)
    (ht1 : (t == "/lib/init/upstart-job") = false)
    (ht2 : strStarts t "/etc/alternatives/" = false) :
    (isKnownFile env fuel rules f c = some true →
      processFile env fuel rules dirIgnored hist f s = WalkResult.skip) ∧
    (ignoreRun env rules f
        (dirIgnored || decide (1 < hist s.st_ctime)) = false →
      isKnownFile env fuel rules f c = some false →
      (f == "/etc/fuse.conf") = false →
      processFile env fuel rules dirIgnored hist f s = WalkResult.emit
        { content := PyContent.bytes (strBytes t), encoding := "plain",
          group := groupOf env s, mode := octalStr s.st_mode,
          owner := ownerOf env s }) := by
  constructor
  · intro hk
    unfold processFile
    split
    · rfl
    · simp [hread, hk]
  · intro hig hk hf
    unfold processFile
    simp [hig, hread, hk, fuseSuppressed, hf, hlnk, hrl, ht1, ht2]

/-- An environment whose symbolic link dereferences to content owned by
the always-trusted package. -/
def envLinkKnown : Env :=
  { envNull with
    readFile := fun p => if p == "/etc/ln" then some [65] else none,
    readlink := fun p => if p == "/etc/ln" then some "/target" else none,
    dpkgCache := fun p => if p == "/etc/ln" then some ["base-files"] else none }

/-- C10 witness: a symlink with known target content is skipped; one with
unknown target content is recorded with the link string as content. -/
theorem symlink_content_classification_witness :
    processFile envLinkKnown 1 [] false (fun _ => 0) "/etc/ln"
      { st_mode := 41471, st_uid := 0, st_gid := 0, st_ctime := 0 } =
      WalkResult.skip ∧
    processFile envLink 2 [] false (fun _ => 0) "/etc/ln2"
      { st_mode := 41471, st_uid := 0, st_gid := 0, st_ctime := 0 } =
      WalkResult.emit
        { content := PyContent.bytes (strBytes "/target"),
          encoding := "plain", group := NameOrId.id 0, mode := "120777",
          owner := NameOrId.id 0 } :=
  ⟨(symlink_content_classification envLinkKnown 1 [] false (fun _ => 0)
      "/etc/ln" { st_mode := 41471, st_uid := 0, st_gid := 0, st_ctime := 0 }
      [65] "/target" (by decide) (by decide) (by decide) (by decide)
      (by decide)).1 (by decide),
   (symlink_content_classification envLink 2 [] false (fun _ => 0)
      "/etc/ln2" { st_mode := 41471, st_uid := 0, st_gid := 0, st_ctime := 0 }
      [65] "/target" (by decide) (by decide) (by decide) (by decide)
      (by decide)).2 (by decide) (by decide) (by decide)⟩

/-- C5: a recorded regular file is stored base64-encoded exactly when its
raw bytes are not valid UTF-8; in that case the stored content is the
base64 encoding of the original bytes and decoding it restores the bytes
exactly; otherwise the record is plain with the decoded text. -/
theorem regular_file_encoding_spec (env : Env) (fuel : Nat)
    (rules : List (String × Bool)) (dirIgnored : Bool) (hist : Int → Nat)
    (f : String) (s : Stat) (bytes : List Nat) (r : FileRecord)
    (hbytes : ∀ b ∈ bytes, b < 256)
    (hread : env.readFile f = some bytes)
    (hlnk : S_ISLNK s.st_mode = false)
    (hemit : processFile env fuel rules dirIgnored hist f s =
      WalkResult.emit r) :
    (r.encoding = "base64" ↔ utf8Decode bytes = none) ∧
    (utf8Decode bytes = none →
      r.content = PyContent.bytes (b64encode bytes) ∧
      b64decode (b64encode bytes) = some bytes) ∧
    (∀ t, utf8Decode bytes = some t →
      r.encoding = "plain" ∧ r.content = PyContent.text t) := by
  obtain ⟨content, hread2, hig, hknown, hbranch⟩ :=
    processFile_emit_inv env fuel rules dirIgnored hist f s r hemit
  rw [hread] at hread2
  injection hread2 with e
  subst e
  rcases hbranch with ⟨t, hl, _⟩ | ⟨_, hreg, hcases⟩
  · rw [hlnk] at hl
    exact absurd hl (by simp)
  · rcases hcases with ⟨t, hutf, hr⟩ | ⟨hutf, hr⟩
    · subst hr
      refine ⟨by simp [hutf], ?_, ?_⟩
      · intro hnone
        rw [hutf] at hnone
        exact absurd hnone (by simp)
      · intro t2 hsome
        rw [hutf] at hsome
        injection hsome with e2
        subst e2
        exact ⟨rfl, rfl⟩
    · subst hr
      refine ⟨by simp [hutf], ?_, ?_⟩
      · intro _
        exact ⟨rfl, b64decode_b64encode bytes hbytes⟩
      · intro t2 hsome
        rw [hutf] at hsome
        exact absurd hsome (by simp)

/-- An environment with one regular file holding a byte invalid in
UTF-8. -/
def envBin : Env :=
  { envNull with
    readFile := fun p => if p == "/etc/bin" then some [255] else none }

/-- C5 witness: the byte 255 is invalid UTF-8, so the emitted record is
base64 and decoding the stored content restores the byte. -/
theorem regular_file_encoding_spec_witness :
    (({ content := PyContent.bytes [47, 119, 61, 61], encoding := "base64",
        group := NameOrId.id 0, mode := "100644",
        owner := NameOrId.id 0 } : FileRecord).encoding = "base64" ↔
      utf8Decode [255] = none) ∧
    b64decode (b64encode [255]) = some [255] := by
  have h := regular_file_encoding_spec envBin 1 [] false (fun _ => 0)
    "/etc/bin" { st_mode := 33188, st_uid := 0, st_gid := 0, st_ctime := 0 }
    [255]
    { content := PyContent.bytes [47, 119, 61, 61], encoding := "base64",
      group := NameOrId.id 0, mode := "100644", owner := NameOrId.id 0 }
    (by decide) (by decide) (by decide) (by decide)
  exact ⟨h.1, (h.2.1 (by decide)).2⟩

/-- A failed content read makes the per-file body a bare `continue`. -/
theorem processFile_skip_of_read_failure (env : Env) (fuel : Nat)
    (rules : List (String × Bool)) (dirIgnored : Bool) (hist : Int → Nat)
    (f : String) (s : Stat) (h : env.readFile f = none) :
    processFile env fuel rules dirIgnored hist f s = WalkResult.skip := by
  unfold processFile
  split
  · rfl
  · simp [h]

/-- Folding only skipped walk results inserts nothing and never aborts. -/
theorem collectResults_skips (l : List (String × WalkResult))
    (h : ∀ pr ∈ l, pr.2 = WalkResult.skip) : collectResults l = some [] := by
  induction l with
  | nil => rfl
  | cons hd tl ih =>
    have h1 : hd.2 = WalkResult.skip := h hd (by simp)
    obtain ⟨p, w⟩ := hd
    simp only at h1
    subst h1
    simp only [collectResults]
    exact ih (fun pr hpr => h pr (by simp [hpr]))

/-- A fully successful file lstat pass yields a value. -/
theorem lstatAll_total (env : Env) (dirpath : String) (names : List String)
    (h : ∀ n ∈ names, (env.lstatOf (joinPath dirpath n)).isSome = true) :
    ∃ fs, lstatAll env dirpath names = some fs := by
  induction names with
  | nil => exact ⟨[], rfl⟩
  | cons fn rest ih =>
    obtain ⟨st, hst⟩ := Option.isSome_iff_exists.mp (h fn (by simp))
    obtain ⟨fs, hfs⟩ := ih (fun n hn => h n (by simp [hn]))
    exact ⟨(joinPath dirpath fn, st) :: fs, by simp [lstatAll, hst, hfs]⟩

/-- A fully successful subdirectory lstat pass yields a value. -/
theorem lstatCtimes_total (env : Env) (dirpath : String)
    (names : List String)
    (h : ∀ n ∈ names, (env.lstatOf (joinPath dirpath n)).isSome = true) :
    ∃ ts, lstatCtimes env dirpath names = some ts := by
  induction names with
  | nil => exact ⟨[], rfl⟩
  | cons d rest ih =>
    obtain ⟨st, hst⟩ := Option.isSome_iff_exists.mp (h d (by simp))
    obtain ⟨ts, hts⟩ := ih (fun n hn => h n (by simp [hn]))
    exact ⟨st.st_ctime :: ts, by simp [lstatCtimes, hst, hts]⟩

/-- Paths of a successful lstat pass come from the listed names. -/
theorem lstatAll_mem (env : Env) (dirpath : String) :
    ∀ (names : List String) (fs : List (String × Stat)),
      lstatAll env dirpath names = some fs →
      ∀ pr ∈ fs, ∃ fn ∈ names, pr.1 = joinPath dirpath fn := by
  intro names
  induction names with
  | nil =>
    intro fs hfs pr hpr
    simp only [lstatAll, Option.some.injEq] at hfs
    subst hfs
    simp at hpr
  | cons fn rest ih =>
    intro fs hfs pr hpr
    cases hst : env.lstatOf (joinPath dirpath fn) with
    | none => simp [lstatAll, hst] at hfs
    | some st =>
      simp only [lstatAll, hst, Option.map_eq_some'] at hfs
      obtain ⟨t, ht, rfl⟩ := hfs
      rcases List.mem_cons.mp hpr with rfl | hpr2
      · exact ⟨fn, by simp, rfl⟩
      · obtain ⟨fn2, hfn2, he⟩ := ih t ht pr hpr2
        exact ⟨fn2, by simp [hfn2], he⟩

/-- A single failing lstat anywhere in the listing aborts the whole
pass. -/
theorem lstatAll_break (env : Env) (dirpath bad : String)
    (hbad : env.lstatOf (joinPath dirpath bad) = none) :
    ∀ (ns1 ns2 : List String),
      lstatAll env dirpath (ns1 ++ bad :: ns2) = none := by
  intro ns1 ns2
  induction ns1 with
  | nil => simp [lstatAll, hbad]
  | cons hd tl ih =>
    cases hl : env.lstatOf (joinPath dirpath hd) with
    | none => simp [lstatAll, hl]
    | some st => simp [lstatAll, hl, ih]

/-- One crashed per-file body aborts the fold of a directory's results. -/
theorem collectResults_crash (l1 l2 : List (String × WalkResult))
    (p : String) :
    collectResults (l1 ++ (p, WalkResult.crash) :: l2) = none := by
  induction l1 with
  | nil => rfl
  | cons hd tl ih =>
    obtain ⟨q, w⟩ := hd
    cases w with
    | crash => rfl
    | skip =>
      simp only [List.cons_append, collectResults]
      exact ih
    | emit r => simp [collectResults, ih]

/-- An environment where one listed file vanished between the directory
listing and its lstat. -/
def envVanish : Env :=
  { envNull with
    lstatOf := fun p =>
      if p == "/etc/gone" then none
      else some { st_mode := 33188, st_uid := 0, st_gid := 0, st_ctime := 0 } }

/-- An environment with a symbolic link whose target content is readable
but whose readlink call fails. -/
def envBroken : Env :=
  { envNull with
    readFile := fun p => if p == "/etc/brok" then some [65] else none,
    lstatOf := fun _ =>
      some { st_mode := 41471, st_uid := 0, st_gid := 0, st_ctime := 0 } }

/-- C9 counterexample: two transient single-file I/O failures that abort
the scan instead of being skipped: a file whose lstat fails (vanished
between listing and stat) aborts the directory before any file is
classified, and a symbolic link that survived every check but whose
readlink fails crashes the per-file body, so folding the directory's
results aborts as well. -/
theorem read_failure_abort_counterexample :
    envVanish.lstatOf "/etc/gone" = none ∧
    processDir envVanish 1 "/etc" [] ["gone"] = none ∧
    envBroken.readFile "/etc/brok" = some [65] ∧
    envBroken.readlink "/etc/brok" = none ∧
    processFile envBroken 1 [] false (fun _ => 0) "/etc/brok"
      { st_mode := 41471, st_uid := 0, st_gid := 0, st_ctime := 0 } =
      WalkResult.crash ∧
    processDir envBroken 1 "/etc" [] ["brok"] = none := by
  refine ⟨by decide, by decide, by decide, by decide, by decide, by decide⟩

/-- C9 (amended): a failed content read (the open/read IOError) on a
single file is skipped silently whatever the other checks say, and
content-read failures alone never abort a directory: with every lstat
succeeding and every read failing, the directory yields the empty record
set.  But not every transient single-file failure is recovered: a failed
lstat on any listed file aborts the directory before any file is
classified, a surviving symbolic link whose readlink fails crashes the
per-file body, and any crash aborts the fold of the directory results. -/
theorem read_failure_skip_abort :
    (∀ (env : Env) (fuel : Nat) (rules : List (String × Bool))
        (dirIgnored : Bool) (hist : Int → Nat) (f : String) (s : Stat),
      env.readFile f = none →
      processFile env fuel rules dirIgnored hist f s = WalkResult.skip) ∧
    (∀ (env : Env) (fuel : Nat) (dirpath : String)
        (dirnames filenames : List String),
      (∀ name ∈ filenames,
        (env.lstatOf (joinPath dirpath name)).isSome = true) →
      (∀ name ∈ dirnames,
        (env.lstatOf (joinPath dirpath name)).isSome = true) →
      (∀ name ∈ filenames, env.readFile (joinPath dirpath name) = none) →
      processDir env fuel dirpath dirnames filenames = some []) ∧
    (∀ (env : Env) (fuel : Nat) (dirpath : String)
        (dirnames ns1 ns2 : List String) (bad : String),
      env.lstatOf (joinPath dirpath bad) = none →
      processDir env fuel dirpath dirnames (ns1 ++ bad :: ns2) = none) ∧
    (∀ (env : Env) (fuel : Nat) (rules : List (String × Bool))
        (dirIgnored : Bool) (hist : Int → Nat) (f : String) (s : Stat)
        (c : List Nat),
      S_ISLNK s.st_mode = true →
      ignoreRun env rules f
        (dirIgnored || decide (1 < hist s.st_ctime)) = false →
      env.readFile f = some c →
      isKnownFile env fuel rules f c = some false →
      fuseSuppressed env rules f = false →
      env.readlink f = none →
      processFile env fuel rules dirIgnored hist f s = WalkResult.crash) ∧
    (∀ (l1 l2 : List (String × WalkResult)) (p : String),
      collectResults (l1 ++ (p, WalkResult.crash) :: l2) = none) := by
  refine ⟨?_, ?_, ?_, ?_, collectResults_crash⟩
  · intro env fuel rules dI hist f s h
    exact processFile_skip_of_read_failure env fuel rules dI hist f s h
  · intro env fuel dirpath dirnames filenames hstat hdstat hreads
    obtain ⟨fs, hfs⟩ := lstatAll_total env dirpath filenames hstat
    obtain ⟨ts, hts⟩ := lstatCtimes_total env dirpath dirnames hdstat
    simp only [processDir, dirResults, hfs, hts]
    apply collectResults_skips
    intro pr hpr
    simp only [List.mem_map] at hpr
    obtain ⟨pr2, hpr2, rfl⟩ := hpr
    obtain ⟨fn, hfn, he⟩ := lstatAll_mem env dirpath filenames fs hfs pr2 hpr2
    refine processFile_skip_of_read_failure _ _ _ _ _ _ _ ?_
    rw [he]
    exact hreads fn hfn
  · intro env fuel dirpath dirnames ns1 ns2 bad hbad
    have h := lstatAll_break env dirpath bad hbad ns1 ns2
    simp only [processDir, dirResults, h]
  · intro env fuel rules dI hist f s c hlnk hig hread hknown hfuse hrl
    unfold processFile
    simp [hig, hread, hknown, hfuse, hlnk, hrl]

/-- C9 witness: a read failure skips; all reads failing with stats intact
gives the empty record set; a vanished file aborts the directory; a
broken link crashes the per-file body; the crash aborts the fold. -/
theorem read_failure_skip_abort_witness :
    processFile envNull 1 [] false (fun _ => 0) "/etc/a"
      { st_mode := 33188, st_uid := 0, st_gid := 0, st_ctime := 0 } =
      WalkResult.skip ∧
    processDir envNull 1 "/etc" [] ["a", "b"] = some [] ∧
    processDir envVanish 1 "/etc" [] (["x"] ++ "gone" :: []) = none ∧
    processFile envBroken 1 [] false (fun _ => 0) "/etc/brok"
      { st_mode := 41471, st_uid := 0, st_gid := 0, st_ctime := 0 } =
      WalkResult.crash ∧
    collectResults ([] ++ ("/etc/brok", WalkResult.crash) :: []) = none :=
  ⟨read_failure_skip_abort.1 envNull 1 [] false (fun _ => 0) "/etc/a"
      { st_mode := 33188, st_uid := 0, st_gid := 0, st_ctime := 0 } rfl,
   read_failure_skip_abort.2.1 envNull 1 "/etc" [] ["a", "b"]
      (by decide) (by decide) (by decide),
   read_failure_skip_abort.2.2.1 envVanish 1 "/etc" [] ["x"] [] "gone"
      (by decide),
   read_failure_skip_abort.2.2.2.1 envBroken 1 [] false (fun _ => 0)
      "/etc/brok"
      { st_mode := 41471, st_uid := 0, st_gid := 0, st_ctime := 0 } [65]
      (by decide) (by decide) (by decide) (by decide) (by decide)
      (by decide),
   read_failure_skip_abort.2.2.2.2 [] [] "/etc/brok"⟩

/-- An environment where `/etc/fuse.conf` holds the legacy literal and a
user negation rule matches it. -/
def envFuse : Env :=
  { envNull with
    userIgnore := some ["!fuse.conf"],
    readFile := fun p =>
      if p == "/etc/fuse.conf" then some userAllowOther else none }

/-- C8 counterexample: `/etc/fuse.conf` survives the earlier checks and
holds exactly the legacy literal, yet it is not suppressed: a user
negation rule matches the path, the forced-ignored re-run of the ignore
engine returns not ignored, and the walker emits the record. -/
theorem fuse_literal_counterexample :
    envFuse.readFile "/etc/fuse.conf" = some userAllowOther ∧
    ignoreRun envFuse (buildIgnoreCache envFuse.userIgnore)
      "/etc/fuse.conf" true = false ∧
    processFile envFuse 1 (buildIgnoreCache envFuse.userIgnore) false
      (fun _ => 0) "/etc/fuse.conf"
      { st_mode := 33188, st_uid := 0, st_gid := 0, st_ctime := 0 } =
      WalkResult.emit
        { content := PyContent.text (strBytes "user_allow_other\n"),
          encoding := "plain", group := NameOrId.id 0, mode := "100644",
          owner := NameOrId.id 0 } := by
  refine ⟨by decide, by decide, by decide⟩

/-- C8 (amended): the legacy `/etc/fuse.conf` file, having survived the
ignore and authenticity checks, is suppressed when its entire content
equals the one literal AND the ignore engine re-run with a forced ignored
state still returns ignored; the comparison is exact, so any other
content is never suppressed by this rule. -/
theorem fuse_literal_suppression (env : Env) (fuel : Nat)
    (rules : List (String × Bool)) (dirIgnored : Bool) (hist : Int → Nat)
    (s : Stat) (c : List Nat)
    (hread : env.readFile "/etc/fuse.conf" = some c)
    (hig : ignoreRun env rules "/etc/fuse.conf"
      (dirIgnored || decide (1 < hist s.st_ctime)) = false)
    (hknown : isKnownFile env fuel rules "/etc/fuse.conf" c = some false) :
    (c = userAllowOther →
      ignoreRun env rules "/etc/fuse.conf" true = true →
      processFile env fuel rules dirIgnored hist "/etc/fuse.conf" s =
        WalkResult.skip) ∧
    (c ≠ userAllowOther → S_ISLNK s.st_mode = false →
      S_ISREG s.st_mode = true →
      processFile env fuel rules dirIgnored hist "/etc/fuse.conf" s ≠
        WalkResult.skip) := by
  constructor
  · intro hc hig2
    subst hc
    unfold processFile
    simp [hig, hread, hknown, fuseSuppressed, hig2]
  · intro hc hl hr2
    unfold processFile
    have hfuse : fuseSuppressed env rules "/etc/fuse.conf" = false := by
      unfold fuseSuppressed
      simp [hread, hc]
    simp only [hig, hread, hknown, hfuse, hl, hr2]
    cases hutf : utf8Decode c with
    | none => simp [hig, hread, hknown, hfuse, hl, hr2, hutf]
    | some t => simp [hig, hread, hknown, hfuse, hl, hr2, hutf]

/-- An environment where `/etc/fuse.conf` holds the legacy literal and no
user rule exists. -/
def envFuse2 : Env :=
  { envNull with
    readFile := fun p =>
      if p == "/etc/fuse.conf" then some userAllowOther else none }

/-- An environment where `/etc/fuse.conf` holds different content. -/
def envFuse3 : Env :=
  { envNull with
    readFile := fun p =>
      if p == "/etc/fuse.conf" then some [65] else none }

/-- C8 witness: the literal content with no negation rule is suppressed;
different content for the same path is not suppressed by this rule. -/
theorem fuse_literal_suppression_witness :
    processFile envFuse2 1 [] false (fun _ => 0) "/etc/fuse.conf"
      { st_mode := 33188, st_uid := 0, st_gid := 0, st_ctime := 0 } =
      WalkResult.skip ∧
    processFile envFuse3 1 [] false (fun _ => 0) "/etc/fuse.conf"
      { st_mode := 33188, st_uid := 0, st_gid := 0, st_ctime := 0 } ≠
      WalkResult.skip :=
  ⟨(fuse_literal_suppression envFuse2 1 [] false (fun _ => 0)
      { st_mode := 33188, st_uid := 0, st_gid := 0, st_ctime := 0 }
      userAllowOther (by decide) (by decide) (by decide)).1 rfl (by decide),
   (fuse_literal_suppression envFuse3 1 [] false (fun _ => 0)
      { st_mode := 33188, st_uid := 0, st_gid := 0, st_ctime := 0 }
      [65] (by decide) (by decide) (by decide)).2 (by decide) (by decide)
      (by decide)⟩
